import Mathlib

/-!
Verification of the reference-counting interop bridge (`refcounted.rs`).

The bridge exposes host-side payloads to a foreign component through an
intrusive reference-count header (`cef_base_ref_counted_t`) embedded at the
start of every foreign-visible record.  A composite allocation
(`RefCounted`) holds the foreign record together with the payload and is
managed by an atomically counted shared-ownership pointer (`Arc`); the four
header entry points (`add_ref`, `release`, `has_one_ref`,
`has_at_least_one_ref`) reconstruct a temporary owner from the raw pointer
and manipulate or inspect the count.

The embedding models the heap explicitly: a heap maps addresses to
allocations, each allocation carrying its current strong count `rc` and the
composite `{cefobj, object}`.  Addresses are naturals, `0` playing the role
of the null pointer; fresh addresses start at `1`.  A teardown log `torn`
records every address whose allocation was destroyed, so "destroyed exactly
once" is the count of an address in that log.  Undefined behaviour
(dereferencing a dangling pointer, unwrapping an absent function-pointer
slot, dropping an `Arc` whose count is zero) is modelled as `none`.
-/

/-- The four callback entry points the bridge can install into a header's
function-pointer slots (`RefCounted::add_ref` / `release` / `has_one_ref` /
`has_at_least_one_ref`).  A slot of the header holds `Option BridgeFn`:
`none` is a null function pointer. -/
inductive BridgeFn : Type
  | addRef
  | release
  | hasOneRef
  | hasAtLeastOneRef
deriving DecidableEq, Repr

/-- The foreign reference-count header `cef_base_ref_counted_t`: a declared
size and four nullable function-pointer slots. -/
structure cef_base_ref_counted_t : Type where
  size : Nat
  add_ref : Option BridgeFn
  release : Option BridgeFn
  has_one_ref : Option BridgeFn
  has_at_least_one_ref : Option BridgeFn
deriving DecidableEq, Repr

/-- A foreign record type `C` implementing the `RefCounter` layout contract:
the header is the first field (`base`), any remaining fields are abstracted
by `rest`. -/
structure CefRecord : Type where
  base : cef_base_ref_counted_t
  rest : Nat
deriving DecidableEq, Repr

/-- The composite `RefCounted<C>`: the foreign record followed by the host
payload `object : P` (the wrapper), allocated as one block. -/
structure RefCounted (P : Type) : Type where
  cefobj : CefRecord
  object : P
deriving DecidableEq, Repr

/-- One live heap allocation: the composite plus the strong count of the
`Arc` that owns it. -/
structure HeapObj (P : Type) : Type where
  rc : Nat
  comp : RefCounted P
deriving DecidableEq, Repr

/-- The heap: allocations keyed by address, the next fresh address, and the
log of addresses whose allocation has been torn down. -/
structure Heap (P : Type) : Type where
  mem : List (Nat × HeapObj P)
  next : Nat
  torn : List Nat
deriving DecidableEq, Repr

/-- The empty heap; addresses start at 1 so every allocation is non-null. -/
def Heap.init (P : Type) : Heap P := { mem := [], next := 1, torn := [] }

/-- Dereference an address. `none` means the address is dangling. -/
def heapLookup {P : Type} (h : Heap P) (a : Nat) : Option (HeapObj P) :=
  (h.mem.find? (fun e => e.1 == a)).map (fun e => e.2)

/-- Overwrite the allocation at an (existing) address. -/
def heapSet {P : Type} (h : Heap P) (a : Nat) (o : HeapObj P) : Heap P :=
  { h with mem := h.mem.map (fun e => if e.1 = a then (a, o) else e) }

/-- Deallocate the address. -/
def heapRemove {P : Type} (h : Heap P) (a : Nat) : Heap P :=
  { h with mem := h.mem.filter (fun e => e.1 != a) }

theorem find_map_update {α : Type} (l : List (Nat × α)) (a : Nat) (o : α) :
    (l.find? (fun e => e.1 == a)).isSome →
      List.find? (fun e => e.1 == a)
        (l.map (fun e => if e.1 = a then (a, o) else e)) = some (a, o) := by
  induction l with
  | nil => simp
  | cons e t ih =>
    intro hs
    by_cases he : e.1 = a
    · simp [List.find?, he]
    · rw [List.find?_cons_of_neg _ (by simpa using he)] at hs
      rw [List.map_cons, if_neg he, List.find?_cons_of_neg _ (by simpa using he)]
      exact ih hs

theorem find_map_update_ne {α : Type} (l : List (Nat × α)) (a b : Nat) (o : α)
    (hne : b ≠ a) :
    List.find? (fun e => e.1 == b)
      (l.map (fun e => if e.1 = a then (a, o) else e)) =
      List.find? (fun e => e.1 == b) l := by
  induction l with
  | nil => simp
  | cons e t ih =>
    by_cases he : e.1 = a
    · rw [List.map_cons, if_pos he,
        List.find?_cons_of_neg _ (by simpa using fun hc => hne hc.symm),
        List.find?_cons_of_neg _ (by simp [he]; exact fun hc => hne hc.symm)]
      exact ih
    · rw [List.map_cons, if_neg he]
      by_cases hb : e.1 = b
      · rw [List.find?_cons_of_pos _ (by simpa using hb),
          List.find?_cons_of_pos _ (by simpa using hb)]
      · rw [List.find?_cons_of_neg _ (by simpa using hb),
          List.find?_cons_of_neg _ (by simpa using hb)]
        exact ih

theorem find_filter_out {α : Type} (l : List (Nat × α)) (a : Nat) :
    List.find? (fun e => e.1 == a) (l.filter (fun e => e.1 != a)) = none := by
  induction l with
  | nil => simp
  | cons e t ih =>
    by_cases he : e.1 = a
    · rw [List.filter_cons_of_neg (by simpa using he)]
      exact ih
    · rw [List.filter_cons_of_pos (by simpa using he),
        List.find?_cons_of_neg _ (by simpa using he)]
      exact ih

theorem find_filter_out_ne {α : Type} (l : List (Nat × α)) (a b : Nat)
    (hne : b ≠ a) :
    List.find? (fun e => e.1 == b) (l.filter (fun e => e.1 != a)) =
      List.find? (fun e => e.1 == b) l := by
  induction l with
  | nil => simp
  | cons e t ih =>
    by_cases he : e.1 = a
    · rw [List.filter_cons_of_neg (by simpa using he),
        List.find?_cons_of_neg _ (by simpa using fun hc : e.1 = b => hne (hc.symm.trans he))]
      · exact ih
    · rw [List.filter_cons_of_pos (by simpa using he)]
      by_cases hb : e.1 = b
      · rw [List.find?_cons_of_pos _ (by simpa using hb),
          List.find?_cons_of_pos _ (by simpa using hb)]
      · rw [List.find?_cons_of_neg _ (by simpa using hb),
          List.find?_cons_of_neg _ (by simpa using hb)]
        exact ih

theorem heapLookup_set_self {P : Type} (h : Heap P) (a : Nat) (o : HeapObj P)
    (obj : HeapObj P) (hl : heapLookup h a = some obj) :
    heapLookup (heapSet h a o) a = some o := by
  unfold heapLookup heapSet
  rw [find_map_update]
  · rfl
  · unfold heapLookup at hl
    cases hf : List.find? (fun e => e.1 == a) h.mem with
    | none => rw [hf] at hl; simp at hl
    | some v => simp [hf]

theorem heapLookup_set_ne {P : Type} (h : Heap P) (a b : Nat) (o : HeapObj P)
    (hne : b ≠ a) : heapLookup (heapSet h a o) b = heapLookup h b := by
  unfold heapLookup heapSet
  rw [find_map_update_ne _ _ _ _ hne]

theorem heapLookup_remove_self {P : Type} (h : Heap P) (a : Nat) :
    heapLookup (heapRemove h a) a = none := by
  unfold heapLookup heapRemove
  rw [find_filter_out]
  rfl

theorem heapLookup_remove_ne {P : Type} (h : Heap P) (a b : Nat) (hne : b ≠ a) :
    heapLookup (heapRemove h a) b = heapLookup h b := by
  unfold heapLookup heapRemove
  rw [find_filter_out_ne _ _ _ hne]

/-! ## The composite allocation (`RefCounted<C>`), `refcounted.rs` lines 234-266 -/

/-- The header `RefCounted::new` installs (`refcounted.rs` 235-241): the
declared size is `size_of::<C>()` (the abstract parameter `sz`) and all four
slots point at the bridge entry points. -/
def bridgeBase (sz : Nat) : cef_base_ref_counted_t :=
  { size := sz
    add_ref := some BridgeFn.addRef
    release := some BridgeFn.release
    has_one_ref := some BridgeFn.hasOneRef
    has_at_least_one_ref := some BridgeFn.hasAtLeastOneRef }

/-- `RefCounted::new(cefobj, object)`: overwrite the template's header with
the bridge header, allocate `Arc::new {cefobj, object}` (strong count 1) and
leak it via `Arc::into_raw`, returning the fresh raw address.  `sz` stands
for the type-level constant `std::mem::size_of::<C>()`. -/
def RefCounted.new {P : Type} (h : Heap P) (sz : Nat) (cefobj : CefRecord)
    (object : P) : Heap P × Nat :=
  let cefobj' : CefRecord := { cefobj with base := bridgeBase sz }
  ({ mem := (h.next, { rc := 1, comp := { cefobj := cefobj', object := object } }) :: h.mem
     next := h.next + 1
     torn := h.torn }, h.next)

/-- `RefCounted::add_ref` (`refcounted.rs` 251-254): reconstruct the `Arc`
from the raw pointer without consuming it (`to_arc`, a `ManuallyDrop`),
clone it into another `ManuallyDrop` — net effect a single increment of the
strong count.  `none` models the UB of a dangling pointer. -/
def RefCounted.add_ref {P : Type} (h : Heap P) (p : Nat) : Option (Heap P) :=
  match heapLookup h p with
  | none => none
  | some obj => some (heapSet h p { obj with rc := obj.rc + 1 })

/-- `RefCounted::release` (`refcounted.rs` 255-258): reconstruct the `Arc`
and let it drop.  The returned boolean is `strong_count > 1`, read before
the drop; the drop decrements and, when the count reaches zero, deallocates
the composite (payload included) — recorded in the teardown log. -/
def RefCounted.release {P : Type} (h : Heap P) (p : Nat) :
    Option (Heap P × Bool) :=
  match heapLookup h p with
  | none => none
  | some obj =>
    match obj.rc with
    | 0 => none
    | 1 =>
      let h' := heapRemove h p
      some ({ h' with torn := p :: h'.torn }, false)
    | n + 2 => some (heapSet h p { obj with rc := n + 1 }, true)

/-- `RefCounted::has_one_ref` (`refcounted.rs` 259-262): temporary borrow,
then `strong_count == 1`; the heap is untouched (read-only by type). -/
def RefCounted.has_one_ref {P : Type} (h : Heap P) (p : Nat) : Option Bool :=
  (heapLookup h p).map (fun obj => obj.rc == 1)

/-- `RefCounted::has_at_least_one_ref` (`refcounted.rs` 263-266): temporary
borrow, then `strong_count >= 1`; the heap is untouched. -/
def RefCounted.has_at_least_one_ref {P : Type} (h : Heap P) (p : Nat) :
    Option Bool :=
  (heapLookup h p).map (fun obj => decide (1 ≤ obj.rc))

/-- `RefCounted::wrapper` (`refcounted.rs` 226-228): reinterpret the record
pointer as a composite pointer and borrow the payload; no count change. -/
def RefCounted.wrapper {P : Type} (h : Heap P) (p : Nat) : Option P :=
  (heapLookup h p).map (fun obj => obj.comp.object)

/-- Calling through a header function-pointer slot: dispatch to the bridge
entry point the slot holds, with a `c_int`-like result (`0`/`1`) for the
value-returning ones. -/
def BridgeFn.invoke {P : Type} : BridgeFn → Heap P → Nat → Option (Heap P × Int)
  | BridgeFn.addRef, h, p => (RefCounted.add_ref h p).map (fun h' => (h', 0))
  | BridgeFn.release, h, p =>
      (RefCounted.release h p).map (fun x => (x.1, if x.2 then 1 else 0))
  | BridgeFn.hasOneRef, h, p =>
      (RefCounted.has_one_ref h p).map (fun b => (h, if b then 1 else 0))
  | BridgeFn.hasAtLeastOneRef, h, p =>
      (RefCounted.has_at_least_one_ref h p).map (fun b => (h, if b then 1 else 0))

/-! ## The owning handle (`RefCountedPtr<C>`), `refcounted.rs` lines 75-201.
A handle value is its non-null raw address. -/

/-- `RefCountedPtr::wrap` (76-82): `RefCounted::new` then
`from_ptr_unchecked` — no extra increment, the handle carries the initial
unit. -/
def RefCountedPtr.wrap {P : Type} (h : Heap P) (sz : Nat) (cefobj : CefRecord)
    (object : P) : Heap P × Nat :=
  RefCounted.new h sz cefobj object

/-- `RefCountedPtr::from_ptr` (91-94): `NonNull::new(ptr)?` — `none` on the
null pointer, otherwise the handle, touching neither pointer nor heap. -/
def RefCountedPtr.from_ptr (p : Nat) : Option Nat :=
  if p = 0 then none else some p

/-- `RefCountedPtr::from_ptr_add_ref` (84-89): `none` (the Rust `None`) on
the null pointer without dereferencing; otherwise read the header's
`add_ref` slot (`unwrap`: absent slot is a panic, modelled by the outer
`none`), call it, and return the handle.  The outer `Option` is
panic/UB, the inner one is the Rust return value. -/
def RefCountedPtr.from_ptr_add_ref {P : Type} (h : Heap P) (p : Nat) :
    Option (Heap P × Option Nat) :=
  if p = 0 then some (h, none)
  else do
    let obj ← heapLookup h p
    let f ← obj.comp.cefobj.base.add_ref
    let x ← BridgeFn.invoke f h p
    some (x.1, some p)

/-- `Clone for RefCountedPtr` (192-201): read the `add_ref` slot through the
pointer (`unwrap`), call it, and return a second handle over the same raw
pointer. -/
def RefCountedPtr.clone {P : Type} (h : Heap P) (p : Nat) :
    Option (Heap P × Nat) := do
  let obj ← heapLookup h p
  let f ← obj.comp.cefobj.base.add_ref
  let x ← BridgeFn.invoke f h p
  some (x.1, p)

/-- `Drop for RefCountedPtr` (182-190): read the `release` slot through the
pointer (`unwrap`) and call it once. -/
def RefCountedPtr.drop {P : Type} (h : Heap P) (p : Nat) : Option (Heap P) := do
  let obj ← heapLookup h p
  let f ← obj.comp.cefobj.base.release
  let x ← BridgeFn.invoke f h p
  some x.1

/-- `RefCountedPtr::into_raw` (105-109): take the raw pointer and
`mem::forget` the handle — the heap is untouched, no decrement runs. -/
def RefCountedPtr.into_raw {P : Type} (h : Heap P) (p : Nat) : Heap P × Nat :=
  (h, p)

/-! ## The handle cache (`RefCountedPtrCache<C>`), `refcounted.rs` lines 64-70 and 112-130 -/

/-- A wrapper value (`C::Wrapper`): its stable identity token — the identity
of the `Arc<Inner>` its `Borrow` impl exposes, compared by `Arc::ptr_eq` —
and the record template its `Wrapper::wrap` impl builds before calling
`RefCountedPtr::wrap` on itself. -/
structure WrapperV : Type where
  token : Nat
  record : CefRecord
deriving DecidableEq, Repr

/-- `Wrapper::wrap` for a cacheable wrapper: wrap the record template with
the wrapper itself as payload. -/
def WrapperV.wrap (w : WrapperV) (h : Heap WrapperV) (sz : Nat) :
    Heap WrapperV × Nat :=
  RefCountedPtr.wrap h sz w.record w

/-- `RefCountedPtrCache`: the cached handle (its raw address) and the
identity token of the payload recorded at the last wrap (`arc`). -/
structure RefCountedPtrCache : Type where
  ptr : Nat
  arc : Nat
deriving DecidableEq, Repr

/-- `RefCountedPtrCache::new` (116-121): record the wrapper's identity and
wrap it. -/
def RefCountedPtrCache.new (h : Heap WrapperV) (sz : Nat) (w : WrapperV) :
    Heap WrapperV × RefCountedPtrCache :=
  let x := w.wrap h sz
  (x.1, { ptr := x.2, arc := w.token })

/-- `RefCountedPtrCache::get_ptr_or_rewrap` (123-129): if the requested
wrapper's identity differs from the recorded one (`!Arc::ptr_eq`), record
the new identity and assign a fresh wrap to `self.ptr` — the assignment
drops the previously cached handle (one `release` on the old composite).
Either way, return `self.ptr.clone()`. -/
def RefCountedPtrCache.get_ptr_or_rewrap (st : RefCountedPtrCache)
    (h : Heap WrapperV) (sz : Nat) (w : WrapperV) :
    Option (RefCountedPtrCache × Heap WrapperV × Nat) :=
  if st.arc ≠ w.token then
    let x := w.wrap h sz
    match RefCountedPtr.drop x.1 st.ptr with
    | none => none
    | some h₂ =>
      match RefCountedPtr.clone h₂ x.2 with
      | none => none
      | some y => some ({ ptr := x.2, arc := w.token }, y.1, y.2)
  else
    match RefCountedPtr.clone h st.ptr with
    | none => none
    | some y => some (st, y.1, y.2)

/-! ## Sequences of foreign `add_ref` / `release` calls -/

/-- One foreign call on the header: an increment (`add_ref`) or a decrement
(`release`). -/
inductive Op : Type
  | inc
  | dec
deriving DecidableEq, Repr

/-- Run a sequence of foreign `add_ref` / `release` calls on one raw
pointer, left to right. -/
def runOps {P : Type} : List Op → Heap P → Nat → Option (Heap P)
  | [], h, _ => some h
  | Op.inc :: rest, h, p =>
    match RefCounted.add_ref h p with
    | none => none
    | some h' => runOps rest h' p
  | Op.dec :: rest, h, p =>
    match RefCounted.release h p with
    | none => none
    | some x => runOps rest x.1 p

/-- Number of increments in a call sequence. -/
def incs (l : List Op) : Nat := l.count Op.inc

/-- Number of decrements in a call sequence. -/
def decs (l : List Op) : Nat := l.count Op.dec

/-! ## Basic facts about the operations -/

theorem incs_inc_cons (l : List Op) : incs (Op.inc :: l) = incs l + 1 := by
  simp [incs, List.count_cons]

theorem incs_dec_cons (l : List Op) : incs (Op.dec :: l) = incs l := by
  simp [incs, List.count_cons]

theorem decs_inc_cons (l : List Op) : decs (Op.inc :: l) = decs l := by
  simp [decs, List.count_cons]

theorem decs_dec_cons (l : List Op) : decs (Op.dec :: l) = decs l + 1 := by
  simp [decs, List.count_cons]

theorem heapLookup_new_self {P : Type} (h : Heap P) (sz : Nat)
    (cefobj : CefRecord) (object : P) :
    heapLookup (RefCounted.new h sz cefobj object).1 h.next =
      some { rc := 1
             comp := { cefobj := { base := bridgeBase sz, rest := cefobj.rest }
                       object := object } } := by
  simp [RefCounted.new, heapLookup, List.find?]

theorem heapLookup_new_ne {P : Type} (h : Heap P) (sz : Nat)
    (cefobj : CefRecord) (object : P) (q : Nat) (hne : q ≠ h.next) :
    heapLookup (RefCounted.new h sz cefobj object).1 q = heapLookup h q := by
  unfold RefCounted.new heapLookup
  rw [List.find?_cons_of_neg _ (by simpa using fun hc => hne hc.symm)]

theorem new_next {P : Type} (h : Heap P) (sz : Nat) (cefobj : CefRecord)
    (object : P) : (RefCounted.new h sz cefobj object).1.next = h.next + 1 :=
  rfl

theorem new_torn {P : Type} (h : Heap P) (sz : Nat) (cefobj : CefRecord)
    (object : P) : (RefCounted.new h sz cefobj object).1.torn = h.torn :=
  rfl

theorem new_addr {P : Type} (h : Heap P) (sz : Nat) (cefobj : CefRecord)
    (object : P) : (RefCounted.new h sz cefobj object).2 = h.next :=
  rfl

/-! ## Concrete example data used by the witnesses -/

/-- A record template with an arbitrary pre-existing header (all slots null,
a bogus declared size), as a caller would hand to `wrap`. -/
def exRecord : CefRecord :=
  { base := { size := 99, add_ref := none, release := none,
              has_one_ref := none, has_at_least_one_ref := none }
    rest := 5 }

/-- The heap after wrapping payload `7` into `exRecord` on the empty heap:
one allocation at address 1 with count 1. -/
def exHeap : Heap Nat := (RefCounted.new (Heap.init Nat) 24 exRecord 7).1

/-- The allocation `exHeap` holds at address 1. -/
def exObj : HeapObj Nat :=
  { rc := 1
    comp := { cefobj := { base := bridgeBase 24, rest := 5 }, object := 7 } }

/-- `exHeap` with the count at address 1 raised to 3 (after two `add_ref`
calls). -/
def exHeap3 : Heap Nat := heapSet exHeap 1 { exObj with rc := 3 }

/-! ## Effect lemmas for the individual operations -/

/-- Effect of `RefCounted::add_ref` on a live address: the count rises by
one, nothing else changes. -/
theorem add_ref_effect {P : Type} (h : Heap P) (p : Nat) (obj : HeapObj P)
    (hl : heapLookup h p = some obj) :
    RefCounted.add_ref h p = some (heapSet h p { obj with rc := obj.rc + 1 }) := by
  unfold RefCounted.add_ref
  rw [hl]

/-- Effect of `RefCounted::release` on a live address with count at least
one: the returned boolean is whether two or more owners existed before the
call; a count of two or more is decremented in place, a count of one tears
the allocation down (recorded once in the log) and leaves the address
dangling, so a repeated `release` there is UB. -/
theorem release_cases {P : Type} (h : Heap P) (p : Nat)
    (obj : HeapObj P) (hl : heapLookup h p = some obj) (hrc : 1 ≤ obj.rc) :
    ∃ h', RefCounted.release h p = some (h', decide (2 ≤ obj.rc)) ∧
      (2 ≤ obj.rc →
        heapLookup h' p = some { obj with rc := obj.rc - 1 } ∧
        h'.torn = h.torn) ∧
      (obj.rc = 1 →
        heapLookup h' p = none ∧ h'.torn = p :: h.torn ∧
        RefCounted.release h' p = none) ∧
      h'.next = h.next ∧
      (∀ q, q ≠ p → heapLookup h' q = heapLookup h q) := by
  obtain ⟨rc, comp⟩ := obj
  dsimp only at hrc ⊢
  rcases rc with _ | m
  · omega
  rcases m with _ | n
  · refine ⟨{ heapRemove h p with torn := p :: (heapRemove h p).torn },
      ?_, fun hx => absurd hx (by omega),
      fun _ => ⟨?_, ?_, ?_⟩, rfl, fun q hq => heapLookup_remove_ne h p q hq⟩
    · unfold RefCounted.release
      rw [hl]
      rfl
    · exact heapLookup_remove_self h p
    · rfl
    · unfold RefCounted.release
      rw [show heapLookup { heapRemove h p with torn := p :: (heapRemove h p).torn } p =
            heapLookup (heapRemove h p) p from rfl,
        heapLookup_remove_self h p]
  · refine ⟨heapSet h p { rc := n + 1, comp := comp },
      ?_, fun _ => ⟨?_, rfl⟩,
      fun hx => absurd hx (by omega), rfl,
      fun q hq => heapLookup_set_ne h p q _ hq⟩
    · unfold RefCounted.release
      rw [hl,
        show decide (2 ≤ n + 1 + 1) = true from by rw [decide_eq_true_eq]; omega]
    · rw [heapLookup_set_self h p _ _ hl]
      norm_num

/-! ## Claim C1 -/

/-- Claim C1: on a composite with outstanding count `rc ≥ 1`, `release`
lowers the count by exactly one; it returns true iff at least one owner
remains after the decrement, i.e. false exactly on the call taking the
count from 1 to 0; the composite and its payload are torn down exactly
once, on that same zero-reaching call — never earlier (the allocation
survives any decrement from `rc ≥ 2`) and never a second time (the address
is dangling afterwards, so a further `release` is UB, not a second
teardown); no other allocation is affected. -/
theorem release_decrement_contract {P : Type} (h : Heap P) (p : Nat)
    (obj : HeapObj P) (hl : heapLookup h p = some obj) (hrc : 1 ≤ obj.rc) :
    ∃ h', RefCounted.release h p = some (h', decide (2 ≤ obj.rc)) ∧
      (decide (2 ≤ obj.rc) = true ↔ 1 ≤ obj.rc - 1) ∧
      (2 ≤ obj.rc →
        heapLookup h' p = some { obj with rc := obj.rc - 1 } ∧
        h'.torn = h.torn) ∧
      (obj.rc = 1 →
        heapLookup h' p = none ∧ h'.torn = p :: h.torn ∧
        RefCounted.release h' p = none) ∧
      h'.next = h.next ∧
      (∀ q, q ≠ p → heapLookup h' q = heapLookup h q) := by
  obtain ⟨h', e1, e2, e3, e4, e5⟩ := release_cases h p obj hl hrc
  exact ⟨h', e1, by rw [decide_eq_true_eq]; omega, e2, e3, e4, e5⟩

/-- Witness for claim C1 at the concrete heap `exHeap`, address 1. -/
theorem release_decrement_contract_witness :
    heapLookup exHeap 1 = some exObj ∧ 1 ≤ exObj.rc ∧
      (∃ h', RefCounted.release exHeap 1 = some (h', decide (2 ≤ exObj.rc)) ∧
        (decide (2 ≤ exObj.rc) = true ↔ 1 ≤ exObj.rc - 1) ∧
        (2 ≤ exObj.rc →
          heapLookup h' 1 = some { exObj with rc := exObj.rc - 1 } ∧
          h'.torn = exHeap.torn) ∧
        (exObj.rc = 1 →
          heapLookup h' 1 = none ∧ h'.torn = 1 :: exHeap.torn ∧
          RefCounted.release h' 1 = none) ∧
        h'.next = exHeap.next ∧
        (∀ q, q ≠ 1 → heapLookup h' q = heapLookup exHeap q)) :=
  ⟨by decide, by decide,
    release_decrement_contract exHeap 1 exObj (by decide) (by decide)⟩

/-! ## Claim C4 -/

/-- Claim C4: `wrap(record_template, payload)` (through `RefCounted::new`)
overwrites the template's header entirely — whatever header the template
carried, the allocation holds `bridgeBase sz`: the four bridge entry points
in the four slots and the declared-size field set to `size_of::<C>()` (the
parameter `sz`) — allocates a single shared-ownership unit `{record,
payload}` whose owner count is already 1, and returns its fresh raw
address; the function is total (it cannot report failure), and no other
allocation or the teardown log is affected. -/
theorem wrap_installs_bridge_header {P : Type} (h : Heap P) (sz : Nat)
    (cefobj : CefRecord) (object : P) :
    (RefCountedPtr.wrap h sz cefobj object).2 = h.next ∧
    heapLookup (RefCountedPtr.wrap h sz cefobj object).1
        (RefCountedPtr.wrap h sz cefobj object).2 =
      some { rc := 1
             comp := { cefobj := { base := bridgeBase sz, rest := cefobj.rest }
                       object := object } } ∧
    bridgeBase sz =
      { size := sz
        add_ref := some BridgeFn.addRef
        release := some BridgeFn.release
        has_one_ref := some BridgeFn.hasOneRef
        has_at_least_one_ref := some BridgeFn.hasAtLeastOneRef } ∧
    (RefCountedPtr.wrap h sz cefobj object).1.next = h.next + 1 ∧
    (RefCountedPtr.wrap h sz cefobj object).1.torn = h.torn ∧
    (∀ q, q ≠ h.next →
      heapLookup (RefCountedPtr.wrap h sz cefobj object).1 q = heapLookup h q) :=
  ⟨rfl, heapLookup_new_self h sz cefobj object, rfl, rfl, rfl,
    fun q hq => heapLookup_new_ne h sz cefobj object q hq⟩

/-- Witness for claim C4: wrapping payload `7` into `exRecord` (whose
pre-existing header has a bogus size and all slots null) on the empty
heap. -/
theorem wrap_installs_bridge_header_witness :
    (RefCountedPtr.wrap (Heap.init Nat) 24 exRecord 7).2 = (Heap.init Nat).next ∧
    heapLookup (RefCountedPtr.wrap (Heap.init Nat) 24 exRecord 7).1
        (RefCountedPtr.wrap (Heap.init Nat) 24 exRecord 7).2 =
      some { rc := 1
             comp := { cefobj := { base := bridgeBase 24, rest := exRecord.rest }
                       object := 7 } } ∧
    bridgeBase 24 =
      { size := 24
        add_ref := some BridgeFn.addRef
        release := some BridgeFn.release
        has_one_ref := some BridgeFn.hasOneRef
        has_at_least_one_ref := some BridgeFn.hasAtLeastOneRef } ∧
    (RefCountedPtr.wrap (Heap.init Nat) 24 exRecord 7).1.next = (Heap.init Nat).next + 1 ∧
    (RefCountedPtr.wrap (Heap.init Nat) 24 exRecord 7).1.torn = (Heap.init Nat).torn ∧
    (∀ q, q ≠ (Heap.init Nat).next →
      heapLookup (RefCountedPtr.wrap (Heap.init Nat) 24 exRecord 7).1 q =
        heapLookup (Heap.init Nat) q) :=
  wrap_installs_bridge_header (Heap.init Nat) 24 exRecord 7

/-! ## Claim C5 -/

/-- Claim C5: wrapping a payload, consuming the handle into a raw pointer
via `into_raw`, and borrowing the payload back through that raw pointer
(`RefCounted::wrapper`, the record-to-composite reinterpretation) yields
exactly the payload stored at wrap time; `into_raw` leaves the heap — in
particular the owner count, still 1 — untouched. -/
theorem wrap_into_raw_payload_roundtrip {P : Type} (h : Heap P) (sz : Nat)
    (cefobj : CefRecord) (object : P) :
    RefCounted.wrapper
        (RefCountedPtr.into_raw (RefCountedPtr.wrap h sz cefobj object).1
          (RefCountedPtr.wrap h sz cefobj object).2).1
        (RefCountedPtr.into_raw (RefCountedPtr.wrap h sz cefobj object).1
          (RefCountedPtr.wrap h sz cefobj object).2).2 =
      some object ∧
    RefCountedPtr.into_raw (RefCountedPtr.wrap h sz cefobj object).1
        (RefCountedPtr.wrap h sz cefobj object).2 =
      ((RefCountedPtr.wrap h sz cefobj object).1,
        (RefCountedPtr.wrap h sz cefobj object).2) ∧
    (heapLookup
        (RefCountedPtr.into_raw (RefCountedPtr.wrap h sz cefobj object).1
          (RefCountedPtr.wrap h sz cefobj object).2).1
        (RefCountedPtr.into_raw (RefCountedPtr.wrap h sz cefobj object).1
          (RefCountedPtr.wrap h sz cefobj object).2).2).map HeapObj.rc =
      some 1 := by
  refine ⟨?_, rfl, ?_⟩
  · show Option.map (fun o => o.comp.object)
        (heapLookup (RefCounted.new h sz cefobj object).1 h.next) = some object
    rw [heapLookup_new_self h sz cefobj object]
    rfl
  · show Option.map HeapObj.rc
        (heapLookup (RefCounted.new h sz cefobj object).1 h.next) = some 1
    rw [heapLookup_new_self h sz cefobj object]
    rfl

/-- Witness for claim C5 on the empty heap with payload `7`. -/
theorem wrap_into_raw_payload_roundtrip_witness :
    RefCounted.wrapper
        (RefCountedPtr.into_raw (RefCountedPtr.wrap (Heap.init Nat) 24 exRecord 7).1
          (RefCountedPtr.wrap (Heap.init Nat) 24 exRecord 7).2).1
        (RefCountedPtr.into_raw (RefCountedPtr.wrap (Heap.init Nat) 24 exRecord 7).1
          (RefCountedPtr.wrap (Heap.init Nat) 24 exRecord 7).2).2 =
      some 7 ∧
    RefCountedPtr.into_raw (RefCountedPtr.wrap (Heap.init Nat) 24 exRecord 7).1
        (RefCountedPtr.wrap (Heap.init Nat) 24 exRecord 7).2 =
      ((RefCountedPtr.wrap (Heap.init Nat) 24 exRecord 7).1,
        (RefCountedPtr.wrap (Heap.init Nat) 24 exRecord 7).2) ∧
    (heapLookup
        (RefCountedPtr.into_raw (RefCountedPtr.wrap (Heap.init Nat) 24 exRecord 7).1
          (RefCountedPtr.wrap (Heap.init Nat) 24 exRecord 7).2).1
        (RefCountedPtr.into_raw (RefCountedPtr.wrap (Heap.init Nat) 24 exRecord 7).1
          (RefCountedPtr.wrap (Heap.init Nat) 24 exRecord 7).2).2).map HeapObj.rc =
      some 1 :=
  wrap_into_raw_payload_roundtrip (Heap.init Nat) 24 exRecord 7

/-! ## Claim C8 -/

/-- Claim C8: on a composite with outstanding count `rc ≥ 1`, `has_one_ref`
returns true iff the count is exactly one and `has_at_least_one_ref`
returns true iff the count is at least one (hence, here, always true);
called through the header slots, both return the heap unchanged — they
mutate neither the count nor any other part of the composite. -/
theorem ref_introspection_contract {P : Type} (h : Heap P) (p : Nat)
    (obj : HeapObj P) (hl : heapLookup h p = some obj) (hrc : 1 ≤ obj.rc) :
    RefCounted.has_one_ref h p = some (obj.rc == 1) ∧
    ((obj.rc == 1) = true ↔ obj.rc = 1) ∧
    RefCounted.has_at_least_one_ref h p = some true ∧
    BridgeFn.invoke BridgeFn.hasOneRef h p =
      some (h, if obj.rc = 1 then 1 else 0) ∧
    BridgeFn.invoke BridgeFn.hasAtLeastOneRef h p = some (h, 1) := by
  have h1 : RefCounted.has_one_ref h p = some (obj.rc == 1) := by
    unfold RefCounted.has_one_ref
    rw [hl]
    rfl
  have h2 : RefCounted.has_at_least_one_ref h p = some true := by
    unfold RefCounted.has_at_least_one_ref
    rw [hl]
    show some (decide (1 ≤ obj.rc)) = some true
    rw [show decide (1 ≤ obj.rc) = true from by rw [decide_eq_true_eq]; omega]
  refine ⟨h1, by simp, h2, ?_, ?_⟩
  · show Option.map (fun b => (h, if b = true then 1 else 0))
        (RefCounted.has_one_ref h p) = some (h, if obj.rc = 1 then 1 else 0)
    rw [h1]
    by_cases hone : obj.rc = 1 <;> simp [hone]
  · show Option.map (fun b => (h, if b = true then 1 else 0))
        (RefCounted.has_at_least_one_ref h p) = some (h, 1)
    rw [h2]
    simp

/-- Witness for claim C8 at `exHeap3` (count 3 at address 1). -/
theorem ref_introspection_contract_witness :
    heapLookup exHeap3 1 = some { exObj with rc := 3 } ∧
    1 ≤ HeapObj.rc { exObj with rc := 3 } ∧
    RefCounted.has_one_ref exHeap3 1 =
      some (HeapObj.rc { exObj with rc := 3 } == 1) ∧
    ((HeapObj.rc { exObj with rc := 3 } == 1) = true ↔
      HeapObj.rc { exObj with rc := 3 } = 1) ∧
    RefCounted.has_at_least_one_ref exHeap3 1 = some true ∧
    BridgeFn.invoke BridgeFn.hasOneRef exHeap3 1 =
      some (exHeap3, if HeapObj.rc { exObj with rc := 3 } = 1 then 1 else 0) ∧
    BridgeFn.invoke BridgeFn.hasAtLeastOneRef exHeap3 1 = some (exHeap3, 1) :=
  ⟨by decide, by decide,
    ref_introspection_contract exHeap3 1 { exObj with rc := 3 } (by decide) (by decide)⟩

/-! ## Effect lemmas for the handle operations -/

/-- Effect of `Clone for RefCountedPtr` on a live handle whose header holds
the bridge's `add_ref` entry point: exactly one increment, same raw
pointer. -/
theorem clone_effect {P : Type} (h : Heap P) (p : Nat) (obj : HeapObj P)
    (hl : heapLookup h p = some obj)
    (haddr : obj.comp.cefobj.base.add_ref = some BridgeFn.addRef) :
    RefCountedPtr.clone h p =
      some (heapSet h p { obj with rc := obj.rc + 1 }, p) := by
  unfold RefCountedPtr.clone
  rw [hl]
  show (obj.comp.cefobj.base.add_ref.bind fun f =>
      (BridgeFn.invoke f h p).bind fun x => some (x.1, p)) = _
  rw [haddr]
  show ((BridgeFn.invoke BridgeFn.addRef h p).bind fun x => some (x.1, p)) = _
  show ((Option.map (fun h' => (h', (0 : Int))) (RefCounted.add_ref h p)).bind
      fun x => some (x.1, p)) = _
  rw [add_ref_effect h p obj hl]
  rfl

/-- Effect of `Drop for RefCountedPtr` on a live handle whose header holds
the bridge's `release` entry point: exactly the one `release` call. -/
theorem drop_effect {P : Type} (h : Heap P) (p : Nat) (obj : HeapObj P)
    (hl : heapLookup h p = some obj)
    (hrel : obj.comp.cefobj.base.release = some BridgeFn.release) :
    RefCountedPtr.drop h p = (RefCounted.release h p).map (fun x => x.1) := by
  unfold RefCountedPtr.drop
  rw [hl]
  show (obj.comp.cefobj.base.release.bind fun f =>
      (BridgeFn.invoke f h p).bind fun x => some x.1) = _
  rw [hrel]
  show ((Option.map (fun x => (x.1, if x.2 = true then (1 : Int) else 0))
      (RefCounted.release h p)).bind fun x => some x.1) = _
  cases RefCounted.release h p <;> rfl

/-- Effect of `RefCountedPtr::from_ptr_add_ref` on a live non-null pointer
whose header holds the bridge's `add_ref` entry point: exactly one
increment, then the handle. -/
theorem from_ptr_add_ref_effect {P : Type} (h : Heap P) (p : Nat)
    (obj : HeapObj P) (hp : p ≠ 0) (hl : heapLookup h p = some obj)
    (haddr : obj.comp.cefobj.base.add_ref = some BridgeFn.addRef) :
    RefCountedPtr.from_ptr_add_ref h p =
      some (heapSet h p { obj with rc := obj.rc + 1 }, some p) := by
  unfold RefCountedPtr.from_ptr_add_ref
  rw [if_neg hp, hl]
  show (obj.comp.cefobj.base.add_ref.bind fun f =>
      (BridgeFn.invoke f h p).bind fun x => some (x.1, some p)) = _
  rw [haddr]
  show ((Option.map (fun h' => (h', (0 : Int))) (RefCounted.add_ref h p)).bind
      fun x => some (x.1, some p)) = _
  rw [add_ref_effect h p obj hl]
  rfl

/-! ## Claim C7 -/

/-- Claim C7: on the null raw pointer, both fallible constructors return
the absent result without dereferencing — `from_ptr` yields `none` and
`from_ptr_add_ref` yields the Rust `None` with the heap (hence every
count) untouched and no UB; on a live non-null pointer, `from_ptr` yields
the handle performing no increment (it does not even take the heap), while
`from_ptr_add_ref` performs exactly one increment before returning the
handle. -/
theorem null_pointer_construction_contract {P : Type} (h : Heap P) (p : Nat)
    (obj : HeapObj P) (hl : heapLookup h p = some obj)
    (haddr : obj.comp.cefobj.base.add_ref = some BridgeFn.addRef)
    (hp : p ≠ 0) :
    RefCountedPtr.from_ptr 0 = none ∧
    RefCountedPtr.from_ptr_add_ref h 0 = some (h, none) ∧
    RefCountedPtr.from_ptr p = some p ∧
    RefCountedPtr.from_ptr_add_ref h p =
      some (heapSet h p { obj with rc := obj.rc + 1 }, some p) := by
  refine ⟨rfl, rfl, ?_, from_ptr_add_ref_effect h p obj hp hl haddr⟩
  unfold RefCountedPtr.from_ptr
  rw [if_neg hp]

/-- Witness for claim C7 at `exHeap`, non-null address 1. -/
theorem null_pointer_construction_contract_witness :
    heapLookup exHeap 1 = some exObj ∧
    (HeapObj.comp exObj).cefobj.base.add_ref = some BridgeFn.addRef ∧
    (1 : Nat) ≠ 0 ∧
    (RefCountedPtr.from_ptr 0 = none ∧
      RefCountedPtr.from_ptr_add_ref exHeap 0 = some (exHeap, none) ∧
      RefCountedPtr.from_ptr 1 = some 1 ∧
      RefCountedPtr.from_ptr_add_ref exHeap 1 =
        some (heapSet exHeap 1 { exObj with rc := exObj.rc + 1 }, some 1)) :=
  ⟨by decide, by decide, by decide,
    null_pointer_construction_contract exHeap 1 exObj (by decide) (by decide)
      (by decide)⟩

/-! ## Claim C3 -/

/-- Claim C3: each live owning handle accounts for exactly one unit of the
composite's count, preserved by every handle operation — `wrap` issues the
one handle carrying the initial unit (count 1, no extra increment),
`clone` performs exactly one increment and yields a second handle over the
same raw pointer, `drop` performs exactly one decrement (in place for a
count of two or more, tearing down on the last unit), and `into_raw`
consumes the handle without decrementing, leaving the heap untouched and
handing the unit to the returned raw pointer. -/
theorem handle_refcount_correspondence {P : Type} (h : Heap P) (sz : Nat)
    (cefobj : CefRecord) (object : P) (p : Nat) (obj : HeapObj P)
    (hl : heapLookup h p = some obj)
    (haddr : obj.comp.cefobj.base.add_ref = some BridgeFn.addRef)
    (hrel : obj.comp.cefobj.base.release = some BridgeFn.release)
    (hrc : 1 ≤ obj.rc) :
    heapLookup (RefCountedPtr.wrap h sz cefobj object).1
        (RefCountedPtr.wrap h sz cefobj object).2 =
      some { rc := 1
             comp := { cefobj := { base := bridgeBase sz, rest := cefobj.rest }
                       object := object } } ∧
    RefCountedPtr.clone h p =
      some (heapSet h p { obj with rc := obj.rc + 1 }, p) ∧
    heapLookup (heapSet h p { obj with rc := obj.rc + 1 }) p =
      some { obj with rc := obj.rc + 1 } ∧
    (∃ h', RefCountedPtr.drop h p = some h' ∧
      (2 ≤ obj.rc →
        heapLookup h' p = some { obj with rc := obj.rc - 1 } ∧
        h'.torn = h.torn) ∧
      (obj.rc = 1 → heapLookup h' p = none ∧ h'.torn = p :: h.torn)) ∧
    RefCountedPtr.into_raw h p = (h, p) := by
  obtain ⟨h', e1, e2, e3, _, _⟩ := release_cases h p obj hl hrc
  refine ⟨heapLookup_new_self h sz cefobj object,
    clone_effect h p obj hl haddr,
    heapLookup_set_self h p _ obj hl,
    ⟨h', ?_, e2, fun h1 => ⟨(e3 h1).1, (e3 h1).2.1⟩⟩, rfl⟩
  rw [drop_effect h p obj hl hrel, e1]
  rfl

/-- Witness for claim C3 at `exHeap3` (count 3 at address 1). -/
theorem handle_refcount_correspondence_witness :
    heapLookup exHeap3 1 = some { exObj with rc := 3 } ∧
    (HeapObj.comp { exObj with rc := 3 }).cefobj.base.add_ref =
      some BridgeFn.addRef ∧
    (HeapObj.comp { exObj with rc := 3 }).cefobj.base.release =
      some BridgeFn.release ∧
    1 ≤ HeapObj.rc { exObj with rc := 3 } ∧
    (heapLookup (RefCountedPtr.wrap exHeap3 24 exRecord 9).1
        (RefCountedPtr.wrap exHeap3 24 exRecord 9).2 =
      some { rc := 1
             comp := { cefobj := { base := bridgeBase 24, rest := exRecord.rest }
                       object := 9 } } ∧
    RefCountedPtr.clone exHeap3 1 =
      some (heapSet exHeap3 1 { { exObj with rc := 3 } with
        rc := HeapObj.rc { exObj with rc := 3 } + 1 }, 1) ∧
    heapLookup (heapSet exHeap3 1 { { exObj with rc := 3 } with
        rc := HeapObj.rc { exObj with rc := 3 } + 1 }) 1 =
      some { { exObj with rc := 3 } with
        rc := HeapObj.rc { exObj with rc := 3 } + 1 } ∧
    (∃ h', RefCountedPtr.drop exHeap3 1 = some h' ∧
      (2 ≤ HeapObj.rc { exObj with rc := 3 } →
        heapLookup h' 1 = some { { exObj with rc := 3 } with
          rc := HeapObj.rc { exObj with rc := 3 } - 1 } ∧
        h'.torn = exHeap3.torn) ∧
      (HeapObj.rc { exObj with rc := 3 } = 1 →
        heapLookup h' 1 = none ∧ h'.torn = 1 :: exHeap3.torn)) ∧
    RefCountedPtr.into_raw exHeap3 1 = (exHeap3, 1)) :=
  ⟨by decide, by decide, by decide, by decide,
    handle_refcount_correspondence exHeap3 24 exRecord 9 1 { exObj with rc := 3 }
      (by decide) (by decide) (by decide) (by decide)⟩

/-! ## Claim C2 -/

/-- Net effect of any sequence of foreign `add_ref`/`release` calls on one
pointer, provided the count stays at least one after every prefix: the run
succeeds, the composite survives with its count shifted by the difference
of increments and decrements, nothing is torn down, and no other address
changes. -/
theorem runOps_net {P : Type} (ops : List Op) :
    ∀ (h : Heap P) (p : Nat) (obj : HeapObj P),
      heapLookup h p = some obj →
      (∀ k, k ≤ ops.length → decs (ops.take k) < obj.rc + incs (ops.take k)) →
      ∃ h' obj', runOps ops h p = some h' ∧
        heapLookup h' p = some obj' ∧
        obj'.comp = obj.comp ∧
        obj'.rc = obj.rc + incs ops - decs ops ∧
        h'.torn = h.torn ∧ h'.next = h.next ∧
        (∀ a, a ≠ p → heapLookup h' a = heapLookup h a) := by
  induction ops with
  | nil =>
    intro h p obj hl _
    exact ⟨h, obj, rfl, hl, rfl, by simp [incs, decs], rfl, rfl, fun a _ => rfl⟩
  | cons op rest ih =>
    intro h p obj hl hpre
    have hrceq : HeapObj.rc { obj with rc := obj.rc + 1 } = obj.rc + 1 := rfl
    cases op with
    | inc =>
      have step := add_ref_effect h p obj hl
      have hl1 : heapLookup (heapSet h p { obj with rc := obj.rc + 1 }) p =
          some { obj with rc := obj.rc + 1 } := heapLookup_set_self h p _ obj hl
      have hpre1 : ∀ k, k ≤ rest.length →
          decs (rest.take k) <
            HeapObj.rc { obj with rc := obj.rc + 1 } + incs (rest.take k) := by
        intro k hk
        have hx := hpre (k + 1) (by simpa using Nat.succ_le_succ hk)
        rw [List.take_succ_cons, incs_inc_cons, decs_inc_cons] at hx
        omega
      obtain ⟨h', obj', e1, e2, e3, e4, e5, e6, e7⟩ :=
        ih (heapSet h p { obj with rc := obj.rc + 1 }) p _ hl1 hpre1
      refine ⟨h', obj', ?_, e2, by rw [e3], ?_, e5, e6, ?_⟩
      · show runOps (Op.inc :: rest) h p = some h'
        unfold runOps
        rw [step]
        exact e1
      · rw [e4, incs_inc_cons, decs_inc_cons, hrceq]
        have hy := hpre rest.length.succ (by simp)
        rw [List.take_succ_cons, List.take_length, incs_inc_cons, decs_inc_cons] at hy
        omega
      · intro a ha
        rw [e7 a ha, heapLookup_set_ne h p a _ ha]
    | dec =>
      have h2 : 2 ≤ obj.rc := by
        have hx := hpre 1 (by simp)
        rw [List.take_succ_cons, List.take_zero, decs_dec_cons, incs_dec_cons] at hx
        have hz : decs ([] : List Op) = 0 := rfl
        have hz2 : incs ([] : List Op) = 0 := rfl
        omega
      obtain ⟨h1, e1, e2, _, e4, e5⟩ := release_cases h p obj hl (by omega)
      obtain ⟨el, et⟩ := e2 h2
      have hrceq2 : HeapObj.rc { obj with rc := obj.rc - 1 } = obj.rc - 1 := rfl
      have hpre1 : ∀ k, k ≤ rest.length →
          decs (rest.take k) <
            HeapObj.rc { obj with rc := obj.rc - 1 } + incs (rest.take k) := by
        intro k hk
        have hx := hpre (k + 1) (by simpa using Nat.succ_le_succ hk)
        rw [List.take_succ_cons, incs_dec_cons, decs_dec_cons] at hx
        omega
      obtain ⟨h', obj', f1, f2, f3, f4, f5, f6, f7⟩ := ih h1 p _ el hpre1
      refine ⟨h', obj', ?_, f2, by rw [f3], ?_, f5.trans et, f6.trans e4, ?_⟩
      · show runOps (Op.dec :: rest) h p = some h'
        unfold runOps
        rw [e1]
        exact f1
      · rw [f4, incs_dec_cons, decs_dec_cons, hrceq2]
        have hy := hpre rest.length.succ (by simp)
        rw [List.take_succ_cons, List.take_length, incs_dec_cons, decs_dec_cons] at hy
        omega
      · intro a ha
        rw [f7 a ha, e5 a ha]

/-- Claim C2: on a live composite, each `add_ref` call raises the
outstanding count by exactly one and mutates nothing else — no teardown,
no allocation, no other address, and the composite's record and payload
are untouched; consequently any sequence of N `add_ref` and N `release`
calls during which the count stays above zero returns the count to its
initial value, with the composite never freed (the teardown log is
unchanged). -/
theorem add_ref_increment_and_net_zero {P : Type} (h : Heap P) (p : Nat)
    (obj : HeapObj P) (hl : heapLookup h p = some obj) (hrc : 1 ≤ obj.rc) :
    (RefCounted.add_ref h p =
        some (heapSet h p { obj with rc := obj.rc + 1 }) ∧
      heapLookup (heapSet h p { obj with rc := obj.rc + 1 }) p =
        some { obj with rc := obj.rc + 1 } ∧
      (heapSet h p { obj with rc := obj.rc + 1 }).torn = h.torn ∧
      (heapSet h p { obj with rc := obj.rc + 1 }).next = h.next ∧
      (∀ a, a ≠ p →
        heapLookup (heapSet h p { obj with rc := obj.rc + 1 }) a =
          heapLookup h a)) ∧
    (∀ (ops : List Op) (N : Nat), incs ops = N → decs ops = N →
      (∀ k, k ≤ ops.length → decs (ops.take k) < obj.rc + incs (ops.take k)) →
      ∃ h' obj', runOps ops h p = some h' ∧
        heapLookup h' p = some obj' ∧
        obj'.rc = obj.rc ∧ obj'.comp = obj.comp ∧ h'.torn = h.torn) := by
  refine ⟨⟨add_ref_effect h p obj hl, heapLookup_set_self h p _ obj hl, rfl, rfl,
    fun a ha => heapLookup_set_ne h p a _ ha⟩, ?_⟩
  intro ops N hi hd hpre
  obtain ⟨h', obj', e1, e2, e3, e4, e5, _, _⟩ := runOps_net ops h p obj hl hpre
  exact ⟨h', obj', e1, e2, by omega, e3, e5⟩

/-- Witness for claim C2 at `exHeap`, address 1, with the sequence
`[add_ref, release]` (N = 1). -/
theorem add_ref_increment_and_net_zero_witness :
    heapLookup exHeap 1 = some exObj ∧ 1 ≤ exObj.rc ∧
    ((RefCounted.add_ref exHeap 1 =
        some (heapSet exHeap 1 { exObj with rc := exObj.rc + 1 }) ∧
      heapLookup (heapSet exHeap 1 { exObj with rc := exObj.rc + 1 }) 1 =
        some { exObj with rc := exObj.rc + 1 } ∧
      (heapSet exHeap 1 { exObj with rc := exObj.rc + 1 }).torn = exHeap.torn ∧
      (heapSet exHeap 1 { exObj with rc := exObj.rc + 1 }).next = exHeap.next ∧
      (∀ a, a ≠ 1 →
        heapLookup (heapSet exHeap 1 { exObj with rc := exObj.rc + 1 }) a =
          heapLookup exHeap a)) ∧
    (∀ (ops : List Op) (N : Nat), incs ops = N → decs ops = N →
      (∀ k, k ≤ ops.length →
        decs (ops.take k) < exObj.rc + incs (ops.take k)) →
      ∃ h' obj', runOps ops exHeap 1 = some h' ∧
        heapLookup h' 1 = some obj' ∧
        obj'.rc = exObj.rc ∧ obj'.comp = exObj.comp ∧ h'.torn = exHeap.torn)) ∧
    incs [Op.inc, Op.dec] = 1 ∧ decs [Op.inc, Op.dec] = 1 ∧
    (∀ k, k ≤ [Op.inc, Op.dec].length →
      decs ([Op.inc, Op.dec].take k) < exObj.rc + incs ([Op.inc, Op.dec].take k)) :=
  ⟨by decide, by decide,
    add_ref_increment_and_net_zero exHeap 1 exObj (by decide) (by decide),
    by decide, by decide, by decide⟩

/-! ## Claim C10 -/

/-- `RefCounted::add_ref` never changes any allocation's composite — record
header and payload are preserved at every address. -/
theorem add_ref_preserves_comp {P : Type} (h h' : Heap P) (p : Nat)
    (hs : RefCounted.add_ref h p = some h') :
    ∀ a obj', heapLookup h' a = some obj' →
      ∃ o, heapLookup h a = some o ∧ obj'.comp = o.comp := by
  unfold RefCounted.add_ref at hs
  cases hl : heapLookup h p with
  | none => rw [hl] at hs; cases hs
  | some obj =>
    rw [hl] at hs
    injection hs with hs
    subst hs
    intro a obj' ha
    by_cases hap : a = p
    · subst hap
      rw [heapLookup_set_self h a _ obj hl] at ha
      injection ha with ha
      exact ⟨obj, hl, by rw [← ha]⟩
    · rw [heapLookup_set_ne h p a _ hap] at ha
      exact ⟨obj', ha, rfl⟩

/-- `RefCounted::release` never changes any surviving allocation's
composite. -/
theorem release_preserves_comp {P : Type} (h : Heap P) (p : Nat)
    (x : Heap P × Bool) (hs : RefCounted.release h p = some x) :
    ∀ a obj', heapLookup x.1 a = some obj' →
      ∃ o, heapLookup h a = some o ∧ obj'.comp = o.comp := by
  unfold RefCounted.release at hs
  cases hl : heapLookup h p with
  | none => rw [hl] at hs; cases hs
  | some obj =>
    rw [hl] at hs
    obtain ⟨rc, comp⟩ := obj
    dsimp only at hs
    rcases rc with _ | m
    · cases hs
    rcases m with _ | n
    · injection hs with hs
      subst hs
      intro a obj' ha
      by_cases hap : a = p
      · subst hap
        rw [show heapLookup ({ heapRemove h a with
              torn := a :: (heapRemove h a).torn }, false).1 a =
            heapLookup (heapRemove h a) a from rfl,
          heapLookup_remove_self h a] at ha
        cases ha
      · rw [show heapLookup ({ heapRemove h p with
              torn := p :: (heapRemove h p).torn }, false).1 a =
            heapLookup (heapRemove h p) a from rfl,
          heapLookup_remove_ne h p a hap] at ha
        exact ⟨obj', ha, rfl⟩
    · injection hs with hs
      subst hs
      intro a obj' ha
      by_cases hap : a = p
      · subst hap
        rw [show heapLookup (heapSet h a { rc := n + 1, comp := comp }, true).1 a =
            heapLookup (heapSet h a { rc := n + 1, comp := comp }) a from rfl,
          heapLookup_set_self h a _ _ hl] at ha
        injection ha with ha
        exact ⟨{ rc := n + 1 + 1, comp := comp }, hl, by rw [← ha]⟩
      · rw [show heapLookup (heapSet h p { rc := n + 1, comp := comp }, true).1 a =
            heapLookup (heapSet h p { rc := n + 1, comp := comp }) a from rfl,
          heapLookup_set_ne h p a _ hap] at ha
        exact ⟨obj', ha, rfl⟩

/-- Claim C10: every composite made by `RefCounted::new` starts with all
four header slots populated, and the two mutating entry points never
change any allocation's header or payload, so the slots stay populated for
the composite's whole lifetime; hence the unconditional `unwrap`s in
`Clone`, `Drop` and `from_ptr_add_ref` succeed on any handle over a
bridge-made composite (`p`), while the same operations on a handle over a
foreign record with null `add_ref`/`release` slots (`q`) panic — so
handles must only be constructed over records with populated slots. -/
theorem slot_population_invariant {P : Type} (h : Heap P) (sz : Nat)
    (cefobj : CefRecord) (object : P) (p q : Nat) (obj objq : HeapObj P)
    (hlp : heapLookup h p = some obj)
    (haddr : obj.comp.cefobj.base.add_ref = some BridgeFn.addRef)
    (hrel : obj.comp.cefobj.base.release = some BridgeFn.release)
    (hrc : 1 ≤ obj.rc) (hp0 : p ≠ 0)
    (hlq : heapLookup h q = some objq)
    (hqaddr : objq.comp.cefobj.base.add_ref = none)
    (hqrel : objq.comp.cefobj.base.release = none)
    (hq0 : q ≠ 0) :
    ((heapLookup (RefCounted.new h sz cefobj object).1
        (RefCounted.new h sz cefobj object).2).map
      (fun o => o.comp.cefobj.base) = some (bridgeBase sz) ∧
      (bridgeBase sz).add_ref.isSome ∧ (bridgeBase sz).release.isSome ∧
      (bridgeBase sz).has_one_ref.isSome ∧
      (bridgeBase sz).has_at_least_one_ref.isSome) ∧
    (∀ h', RefCounted.add_ref h p = some h' →
      ∀ a obj', heapLookup h' a = some obj' →
        ∃ o, heapLookup h a = some o ∧ obj'.comp = o.comp) ∧
    (∀ x, RefCounted.release h p = some x →
      ∀ a obj', heapLookup x.1 a = some obj' →
        ∃ o, heapLookup h a = some o ∧ obj'.comp = o.comp) ∧
    (RefCountedPtr.clone h p).isSome ∧
    (RefCountedPtr.from_ptr_add_ref h p).isSome ∧
    (RefCountedPtr.drop h p).isSome ∧
    RefCountedPtr.clone h q = none ∧
    RefCountedPtr.from_ptr_add_ref h q = none ∧
    RefCountedPtr.drop h q = none := by
  refine ⟨⟨?_, rfl, rfl, rfl, rfl⟩,
    fun h' hs => add_ref_preserves_comp h h' p hs,
    fun x hs => release_preserves_comp h p x hs, ?_, ?_, ?_, ?_, ?_, ?_⟩
  · rw [show (RefCounted.new h sz cefobj object).2 = h.next from rfl,
      heapLookup_new_self h sz cefobj object]
    rfl
  · rw [clone_effect h p obj hlp haddr]
    rfl
  · rw [from_ptr_add_ref_effect h p obj hp0 hlp haddr]
    rfl
  · obtain ⟨h', e1, _, _, _, _⟩ := release_cases h p obj hlp hrc
    rw [drop_effect h p obj hlp hrel, e1]
    rfl
  · unfold RefCountedPtr.clone
    rw [hlq]
    show (objq.comp.cefobj.base.add_ref.bind fun f =>
      (BridgeFn.invoke f h q).bind fun x => some (x.1, q)) = none
    rw [hqaddr]
    rfl
  · unfold RefCountedPtr.from_ptr_add_ref
    rw [if_neg hq0, hlq]
    show (objq.comp.cefobj.base.add_ref.bind fun f =>
      (BridgeFn.invoke f h q).bind fun x => some (x.1, some q)) = none
    rw [hqaddr]
    rfl
  · unfold RefCountedPtr.drop
    rw [hlq]
    show (objq.comp.cefobj.base.release.bind fun f =>
      (BridgeFn.invoke f h q).bind fun x => some x.1) = none
    rw [hqrel]
    rfl

/-- A foreign-owned allocation whose header slots are all null (`exRecord`
is its header). -/
def exForeignObj : HeapObj Nat :=
  { rc := 1, comp := { cefobj := exRecord, object := 8 } }

/-- A heap holding one bridge-made composite (address 1) and one
foreign-owned record whose optional header slots are all null (address
2). -/
def exForeignHeap : Heap Nat :=
  { mem := [(1, exObj), (2, exForeignObj)]
    next := 3
    torn := [] }

/-- Witness for claim C10 at `exForeignHeap`: address 1 is bridge-made,
address 2 has null slots. -/
theorem slot_population_invariant_witness :
    heapLookup exForeignHeap 1 = some exObj ∧
    (HeapObj.comp exObj).cefobj.base.add_ref = some BridgeFn.addRef ∧
    (HeapObj.comp exObj).cefobj.base.release = some BridgeFn.release ∧
    1 ≤ exObj.rc ∧ (1 : Nat) ≠ 0 ∧
    heapLookup exForeignHeap 2 = some exForeignObj ∧
    (HeapObj.comp exForeignObj).cefobj.base.add_ref = none ∧
    (HeapObj.comp exForeignObj).cefobj.base.release = none ∧
    (2 : Nat) ≠ 0 ∧
    (((heapLookup (RefCounted.new exForeignHeap 24 exRecord 9).1
        (RefCounted.new exForeignHeap 24 exRecord 9).2).map
      (fun o => o.comp.cefobj.base) = some (bridgeBase 24) ∧
      (bridgeBase 24).add_ref.isSome ∧ (bridgeBase 24).release.isSome ∧
      (bridgeBase 24).has_one_ref.isSome ∧
      (bridgeBase 24).has_at_least_one_ref.isSome) ∧
    (∀ h', RefCounted.add_ref exForeignHeap 1 = some h' →
      ∀ a obj', heapLookup h' a = some obj' →
        ∃ o, heapLookup exForeignHeap a = some o ∧ obj'.comp = o.comp) ∧
    (∀ x, RefCounted.release exForeignHeap 1 = some x →
      ∀ a obj', heapLookup x.1 a = some obj' →
        ∃ o, heapLookup exForeignHeap a = some o ∧ obj'.comp = o.comp) ∧
    (RefCountedPtr.clone exForeignHeap 1).isSome ∧
    (RefCountedPtr.from_ptr_add_ref exForeignHeap 1).isSome ∧
    (RefCountedPtr.drop exForeignHeap 1).isSome ∧
    RefCountedPtr.clone exForeignHeap 2 = none ∧
    RefCountedPtr.from_ptr_add_ref exForeignHeap 2 = none ∧
    RefCountedPtr.drop exForeignHeap 2 = none) :=
  ⟨by decide, by decide, by decide, by decide, by decide, by decide, by decide,
    by decide, by decide,
    slot_population_invariant exForeignHeap 24 exRecord 9 1 2 exObj
      exForeignObj
      (by decide) (by decide) (by decide) (by decide) (by decide)
      (by decide) (by decide) (by decide) (by decide)⟩

/-! ## Claim C6 -/

/-- In a heap whose addresses are all below `next`, a live address is below
`next` (so a fresh allocation cannot collide with it). -/
theorem heapLookup_lt_next {P : Type} (h : Heap P) (a : Nat) (o : HeapObj P)
    (hwf : ∀ e ∈ h.mem, e.1 < h.next) (hl : heapLookup h a = some o) :
    a < h.next := by
  unfold heapLookup at hl
  cases hf : h.mem.find? (fun e => e.1 == a) with
  | none => rw [hf] at hl; cases hl
  | some e =>
    have hmem := List.mem_of_find?_eq_some hf
    have hpred := List.find?_some hf
    have he : e.1 = a := by simpa using hpred
    exact he ▸ hwf e hmem

/-- Claim C6: `get_ptr_or_rewrap` with a wrapper whose identity token
equals the recorded one clones the cached handle — one increment on the
cached composite, same raw pointer, no new allocation (`next` unchanged),
cache state returned unchanged; with a different token it wraps afresh at
the next address, stores the new handle and token as the cache state,
drops only the cache's own reference to the old composite (one decrement,
tearing it down only if the cache held the last unit) and returns a handle
over the new composite (count 2: the wrap unit held by the cache plus the
cloned unit returned). -/
theorem cache_get_ptr_or_rewrap_contract (st : RefCountedPtrCache)
    (h : Heap WrapperV) (sz : Nat) (w : WrapperV) (oldobj : HeapObj WrapperV)
    (hl : heapLookup h st.ptr = some oldobj)
    (haddr : oldobj.comp.cefobj.base.add_ref = some BridgeFn.addRef)
    (hrel : oldobj.comp.cefobj.base.release = some BridgeFn.release)
    (hrc : 1 ≤ oldobj.rc)
    (hwf : ∀ e ∈ h.mem, e.1 < h.next) :
    (st.arc = w.token →
      RefCountedPtrCache.get_ptr_or_rewrap st h sz w =
        some (st, heapSet h st.ptr { oldobj with rc := oldobj.rc + 1 }, st.ptr) ∧
      heapLookup (heapSet h st.ptr { oldobj with rc := oldobj.rc + 1 }) st.ptr =
        some { oldobj with rc := oldobj.rc + 1 } ∧
      (heapSet h st.ptr { oldobj with rc := oldobj.rc + 1 }).next = h.next ∧
      (heapSet h st.ptr { oldobj with rc := oldobj.rc + 1 }).torn = h.torn ∧
      (∀ a, a ≠ st.ptr →
        heapLookup (heapSet h st.ptr { oldobj with rc := oldobj.rc + 1 }) a =
          heapLookup h a)) ∧
    (st.arc ≠ w.token →
      ∃ h', RefCountedPtrCache.get_ptr_or_rewrap st h sz w =
          some ({ ptr := h.next, arc := w.token }, h', h.next) ∧
        (∃ newobj, heapLookup h' h.next = some newobj ∧ newobj.rc = 2 ∧
          newobj.comp =
            { cefobj := { base := bridgeBase sz, rest := w.record.rest }
              object := w }) ∧
        (2 ≤ oldobj.rc →
          heapLookup h' st.ptr = some { oldobj with rc := oldobj.rc - 1 } ∧
          h'.torn = h.torn) ∧
        (oldobj.rc = 1 →
          heapLookup h' st.ptr = none ∧ h'.torn = st.ptr :: h.torn) ∧
        h'.next = h.next + 1 ∧
        (∀ a, a ≠ st.ptr → a ≠ h.next → heapLookup h' a = heapLookup h a)) := by
  constructor
  · intro heq
    refine ⟨?_, heapLookup_set_self h st.ptr _ oldobj hl, rfl, rfl,
      fun a ha => heapLookup_set_ne h st.ptr a _ ha⟩
    unfold RefCountedPtrCache.get_ptr_or_rewrap
    rw [if_neg (fun hcon => hcon heq), clone_effect h st.ptr oldobj hl haddr]
  · intro hne
    have hlt : st.ptr < h.next := heapLookup_lt_next h st.ptr oldobj hwf hl
    have hne2 : st.ptr ≠ h.next := by omega
    have hne3 : h.next ≠ st.ptr := by omega
    have hnew : heapLookup (RefCounted.new h sz w.record w).1 h.next =
        some { rc := 1
               comp := { cefobj := { base := bridgeBase sz, rest := w.record.rest }
                         object := w } } :=
      heapLookup_new_self h sz w.record w
    have hold1 : heapLookup (RefCounted.new h sz w.record w).1 st.ptr =
        some oldobj :=
      (heapLookup_new_ne h sz w.record w st.ptr hne2).trans hl
    obtain ⟨h₂, e1, e2, e3, e4, e5⟩ :=
      release_cases (RefCounted.new h sz w.record w).1 st.ptr oldobj hold1 hrc
    have hdrop : RefCountedPtr.drop (RefCounted.new h sz w.record w).1 st.ptr =
        some h₂ := by
      rw [drop_effect _ st.ptr oldobj hold1 hrel, e1]
      rfl
    have hnew2 : heapLookup h₂ h.next =
        some { rc := 1
               comp := { cefobj := { base := bridgeBase sz, rest := w.record.rest }
                         object := w } } :=
      (e5 h.next hne3).trans hnew
    have hclone := clone_effect h₂ h.next _ hnew2 rfl
    refine ⟨heapSet h₂ h.next
        { rc := 1 + 1
          comp := { cefobj := { base := bridgeBase sz, rest := w.record.rest }
                    object := w } },
      ?_, ⟨_, heapLookup_set_self h₂ h.next _ _ hnew2, rfl, rfl⟩,
      ?_, ?_, ?_, ?_⟩
    · unfold RefCountedPtrCache.get_ptr_or_rewrap
      rw [if_pos hne]
      show (match RefCountedPtr.drop (RefCounted.new h sz w.record w).1 st.ptr with
        | none => none
        | some h₂ =>
          match RefCountedPtr.clone h₂ h.next with
          | none => none
          | some y =>
            some (({ ptr := h.next, arc := w.token } : RefCountedPtrCache),
              y.1, y.2)) = _
      rw [hdrop]
      show (match RefCountedPtr.clone h₂ h.next with
        | none => none
        | some y =>
          some (({ ptr := h.next, arc := w.token } : RefCountedPtrCache),
            y.1, y.2)) = _
      rw [hclone]
    · intro h2le
      obtain ⟨f1, f2⟩ := e2 h2le
      refine ⟨?_, ?_⟩
      · rw [heapLookup_set_ne h₂ h.next st.ptr _ hne2]
        exact f1
      · show h₂.torn = h.torn
        rw [f2]
        rfl
    · intro hone
      obtain ⟨f1, f2, _⟩ := e3 hone
      refine ⟨?_, ?_⟩
      · rw [heapLookup_set_ne h₂ h.next st.ptr _ hne2]
        exact f1
      · show h₂.torn = st.ptr :: h.torn
        rw [f2]
        rfl
    · show h₂.next = h.next + 1
      rw [e4]
      rfl
    · intro a ha hb
      rw [heapLookup_set_ne h₂ h.next a _ hb, e5 a ha,
        heapLookup_new_ne h sz w.record w a hb]

/-- A concrete cacheable wrapper with identity token 10. -/
def exWrapper : WrapperV := { token := 10, record := exRecord }

/-- A second wrapper with a different identity token (11). -/
def exWrapperB : WrapperV := { token := 11, record := exRecord }

/-- The heap and cache state after `RefCountedPtrCache::new` on
`exWrapper`: the composite lives at address 1 with count 1, and the cache
records token 10. -/
def exCacheInit : Heap WrapperV × RefCountedPtrCache :=
  RefCountedPtrCache.new (Heap.init WrapperV) 24 exWrapper

/-- The heap component of `exCacheInit`. -/
def exCacheHeap : Heap WrapperV := exCacheInit.1

/-- The cache state component of `exCacheInit`. -/
def exCacheSt : RefCountedPtrCache := exCacheInit.2

/-- The allocation `exCacheHeap` holds at address 1. -/
def exCacheObj : HeapObj WrapperV :=
  { rc := 1
    comp := { cefobj := { base := bridgeBase 24, rest := 5 }, object := exWrapper } }

/-- Witness for claim C6 at the freshly initialised cache, requesting the
different-token wrapper (and, inside the conclusion's first conjunct, the
same-token case). -/
theorem cache_get_ptr_or_rewrap_contract_witness :
    heapLookup exCacheHeap exCacheSt.ptr = some exCacheObj ∧
    (HeapObj.comp exCacheObj).cefobj.base.add_ref = some BridgeFn.addRef ∧
    (HeapObj.comp exCacheObj).cefobj.base.release = some BridgeFn.release ∧
    1 ≤ exCacheObj.rc ∧
    (∀ e ∈ exCacheHeap.mem, e.1 < exCacheHeap.next) ∧
    ((exCacheSt.arc = exWrapperB.token →
      RefCountedPtrCache.get_ptr_or_rewrap exCacheSt exCacheHeap 24 exWrapperB =
        some (exCacheSt,
          heapSet exCacheHeap exCacheSt.ptr
            { exCacheObj with rc := exCacheObj.rc + 1 }, exCacheSt.ptr) ∧
      heapLookup (heapSet exCacheHeap exCacheSt.ptr
          { exCacheObj with rc := exCacheObj.rc + 1 }) exCacheSt.ptr =
        some { exCacheObj with rc := exCacheObj.rc + 1 } ∧
      (heapSet exCacheHeap exCacheSt.ptr
        { exCacheObj with rc := exCacheObj.rc + 1 }).next = exCacheHeap.next ∧
      (heapSet exCacheHeap exCacheSt.ptr
        { exCacheObj with rc := exCacheObj.rc + 1 }).torn = exCacheHeap.torn ∧
      (∀ a, a ≠ exCacheSt.ptr →
        heapLookup (heapSet exCacheHeap exCacheSt.ptr
          { exCacheObj with rc := exCacheObj.rc + 1 }) a =
          heapLookup exCacheHeap a)) ∧
    (exCacheSt.arc ≠ exWrapperB.token →
      ∃ h', RefCountedPtrCache.get_ptr_or_rewrap exCacheSt exCacheHeap 24 exWrapperB =
          some ({ ptr := exCacheHeap.next, arc := exWrapperB.token }, h',
            exCacheHeap.next) ∧
        (∃ newobj, heapLookup h' exCacheHeap.next = some newobj ∧
          newobj.rc = 2 ∧
          newobj.comp =
            { cefobj := { base := bridgeBase 24, rest := exWrapperB.record.rest }
              object := exWrapperB }) ∧
        (2 ≤ exCacheObj.rc →
          heapLookup h' exCacheSt.ptr =
            some { exCacheObj with rc := exCacheObj.rc - 1 } ∧
          h'.torn = exCacheHeap.torn) ∧
        (exCacheObj.rc = 1 →
          heapLookup h' exCacheSt.ptr = none ∧
          h'.torn = exCacheSt.ptr :: exCacheHeap.torn) ∧
        h'.next = exCacheHeap.next + 1 ∧
        (∀ a, a ≠ exCacheSt.ptr → a ≠ exCacheHeap.next →
          heapLookup h' a = heapLookup exCacheHeap a))) :=
  ⟨by decide, by decide, by decide, by decide, by decide,
    cache_get_ptr_or_rewrap_contract exCacheSt exCacheHeap 24 exWrapperB
      exCacheObj (by decide) (by decide) (by decide) (by decide) (by decide)⟩
